import Mathlib

/-!
Verification of the vvtest fork's scheduling and parameter-expansion core.

Each definition is a shallow embedding of the correspondingly named Python
function or method from the repository sources (`libvvtest/ParameterSet.py`,
`libvvtest/execlist.py`, `libvvtest/TestList.py`, `batch/slurm.py`,
`trig/runjob.py`).  Python dictionaries are modelled as insertion-ordered
association lists, machine integers as `Nat`/`Int`, and fallible operations
return `Option`/`Except`.
-/

set_option autoImplicit false

namespace VVTest

/-- A parameter instance: a Python dict `param name -> param value`, modelled
as an insertion-ordered association list (Python dicts preserve insertion
order; assigning to an existing key keeps its position). -/
abbrev Dict := List (String × String)

/-- Python `D[k] = v` on an insertion-ordered dict: overwrite in place when
the key exists, otherwise append at the end. -/
def dictSet (D : Dict) (k v : String) : Dict :=
  if D.any (fun p => p.1 == k) then
    D.map (fun p => if p.1 == k then (k, v) else p)
  else
    D ++ [(k, v)]

/-- Python dict equality (`paramD == D`): same keys bound to the same values,
independent of insertion order. -/
def dictBEq (D1 D2 : Dict) : Bool :=
  D1.all (fun p => (D2.find? (fun q => q.1 == p.1)).map Prod.snd == some p.2) &&
  D2.all (fun p => (D1.find? (fun q => q.1 == p.1)).map Prod.snd == some p.2)

/-- `ParameterSet.py::add_parameter_group_to_list_of_dicts`: copy each dict
and add `names[i] = values[i]` for each i. -/
def add_parameter_group_to_list_of_dicts
    (Dlist : List Dict) (names : List String) (values : List String) : List Dict :=
  Dlist.map (fun D => (names.zip values).foldl (fun d p => dictSet d p.1 p.2) D)

/-- `ParameterSet.py::accumulate_parameter_group_list`: for each value tuple
of the new group (outer loop) extend every existing dict (inner loop). -/
def accumulate_parameter_group_list
    (Dlist : List Dict) (names : List String) (values_list : List (List String)) :
    List Dict :=
  values_list.foldl
    (fun newL values => newL ++ add_parameter_group_to_list_of_dicts Dlist names values)
    []

/-- `ParameterSet.py::ParameterSet`: the recorded groups (`self.params`) and
the current instance list (`self.instances`). -/
structure ParameterSet where
  params : List (List String × List (List String))
  instances : List Dict
deriving DecidableEq

/-- `ParameterSet.__init__`. -/
def ParameterSet.empty : ParameterSet := ⟨[], []⟩

/-- `ParameterSet.addParameterGroup`. -/
def ParameterSet.addParameterGroup (ps : ParameterSet)
    (names : List String) (values_list : List (List String)) : ParameterSet :=
  let curL := if ps.params.isEmpty then [([] : Dict)] else ps.instances
  { params := ps.params ++ [(names, values_list)]
    instances := accumulate_parameter_group_list curL names values_list }

/-- `ParameterSet.addParameter`: sugar for a single-name group of
singleton tuples. -/
def ParameterSet.addParameter (ps : ParameterSet)
    (name : String) (value_list : List String) : ParameterSet :=
  ps.addParameterGroup [name] (value_list.map (fun v => [v]))

/-- `ParameterSet.getInstances`. -/
def ParameterSet.getInstances (ps : ParameterSet) : List Dict := ps.instances

/-- `ParameterSet._reconstructInstances`: clear `params`/`instances` and
replay every recorded group through `addParameterGroup`. -/
def ParameterSet.reconstructInstances (ps : ParameterSet) : ParameterSet :=
  ps.params.foldl (fun acc nv => acc.addParameterGroup nv.1 nv.2) ParameterSet.empty

/-- `ParameterSet.applyParamFilter`: rebuild the instances from the recorded
groups, then keep those on which the filter evaluates true. -/
def ParameterSet.applyParamFilter (ps : ParameterSet) (param_filter : Dict → Bool) :
    ParameterSet :=
  let ps' := ps.reconstructInstances
  { ps' with instances := ps'.instances.filter param_filter }

/-- The concrete ParameterSet of claim C1: `addParameter('A',[a1,a2])` then
`addParameterGroup(['B','C'],[(b1,c1),(b2,c2)])`. -/
def psC1 : ParameterSet :=
  (ParameterSet.empty.addParameter "A" ["a1", "a2"]).addParameterGroup
    ["B", "C"] [["b1", "c1"], ["b2", "c2"]]

/-! ### Cumulative runtime filter (`TestList.py::filter_by_cummulative_runtime`) -/

/-- A test as seen by the cumulative-runtime filter: its execute directory
(the key of `activedict`), its runtime estimate (float in the source,
modelled as `Nat`; `None` when no estimate is recorded), and its current
skip reason. -/
structure RtTest where
  xdir : String
  runtime : Option Nat
  skip : Option String
deriving DecidableEq

/-- Modelled from the spec: `StatusHandler.skipTest` (the StatusHandler class
is not among the sources; per the spec, "a test with any skip reason is
inactive"): a test is skipped iff a skip reason is recorded. -/
def skipTest (t : RtTest) : Bool := t.skip.isSome

/-- Modelled from the spec: `StatusHandler.markSkip` records the skip reason
on the test's status. -/
def markSkip (t : RtTest) (reason : String) : RtTest := { t with skip := some reason }

/-- Lexicographic code-point comparison of character lists (Python `<` on
strings). -/
def charsLt : List Char → List Char → Bool
  | [], [] => false
  | [], _ :: _ => true
  | _ :: _, [] => false
  | a :: as, b :: bs => a < b || (a == b && charsLt as bs)

/-- The ascending comparison Python uses on the `(runtime, xdir, test)`
tuples (the test object itself is never reached since xdirs are unique
dict keys). -/
def rtKeyLt (a b : Nat × String × RtTest) : Bool :=
  a.1 < b.1 || (a.1 == b.1 && charsLt a.2.1.data b.2.1.data)

/-- Stable ascending insertion: a new element goes after existing equal
keys, as in Python's stable `list.sort()`. -/
def insertAscend (x : Nat × String × RtTest) :
    List (Nat × String × RtTest) → List (Nat × String × RtTest)
  | [] => [x]
  | y :: ys => if rtKeyLt x y then x :: y :: ys else y :: insertAscend x ys

/-- `tL.sort()`: stable ascending sort by `(runtime, xdir)`. -/
def sortAscend (l : List (Nat × String × RtTest)) : List (Nat × String × RtTest) :=
  l.foldl (fun acc x => insertAscend x acc) []

/-- The accumulation walk of `filter_by_cummulative_runtime`: skip-marked
tests are passed over; otherwise the test's time is added to the running
sum and the test is marked skipped as soon as the sum exceeds the cutoff. -/
def cumWalk (rtsum : Nat) : List (Nat × String × RtTest) → Nat → List RtTest
  | [], _ => []
  | (tm, _, t) :: rest, tsum =>
    if skipTest t then t :: cumWalk rtsum rest tsum
    else if tsum + tm > rtsum then
      markSkip t "cummulative runtime threshhold" :: cumWalk rtsum rest (tsum + tm)
    else t :: cumWalk rtsum rest (tsum + tm)

/-- `TestList.py::filter_by_cummulative_runtime`: build the
`(time, xdir, test)` list (missing runtimes count as 0), sort ascending,
then walk accumulating.  Returns the tests with updated skip marks (in
sorted order). -/
def filter_by_cummulative_runtime (activedict : List RtTest) (rtsum : Nat) :
    List RtTest :=
  cumWalk rtsum (sortAscend (activedict.map (fun t => (t.runtime.getD 0, t.xdir, t)))) 0

/-- The three tests of claim C2, with runtime estimates 10, 20 and 40. -/
def rt10 : RtTest := ⟨"t10", some 10, none⟩

/-- The 20-second test of claim C2. -/
def rt20 : RtTest := ⟨"t20", some 20, none⟩

/-- The 40-second test of claim C2. -/
def rt40 : RtTest := ⟨"t40", some 40, none⟩

/-! ### SLURM batch submission parsing (`batch/slurm.py::BatchSLURM.submit`) -/

/-- Substring search (Python `str.find`, with -1 modelled as `none`):
index of the first occurrence of `pat`. -/
def strFind (pat : List Char) : List Char → Option Nat
  | [] => if pat.isEmpty then some 0 else none
  | c :: t => if pat.isPrefixOf (c :: t) then some 0 else (strFind pat t).map (· + 1)

/-- Python `str.split()` whitespace characters. -/
def pyIsSpace (c : Char) : Bool :=
  c == ' ' || c == '\t' || c == '\n' || c == '\r' || c == '\x0b' || c == '\x0c'

/-- Worker for `pySplit`; `cur` holds the current word reversed. -/
def pySplitAux : List Char → List Char → List (List Char)
  | [], cur => if cur.isEmpty then [] else [cur.reverse]
  | c :: rest, cur =>
    if pyIsSpace c then
      if cur.isEmpty then pySplitAux rest []
      else cur.reverse :: pySplitAux rest []
    else pySplitAux rest (c :: cur)

/-- Python `str.split()` with no argument: maximal runs of non-whitespace. -/
def pySplit (s : List Char) : List (List Char) := pySplitAux s []

/-- Numeric value of a digit list. -/
def digitsVal (ds : List Char) : Nat := ds.foldl (fun a c => a * 10 + (c.toNat - 48)) 0

/-- A non-empty all-digit list parses; anything else raises in Python. -/
def pyDigits? (ds : List Char) : Option Nat :=
  if !ds.isEmpty && ds.all Char.isDigit then some (digitsVal ds) else none

/-- Python `int(str)` restricted to the forms occurring in whitespace-split
tokens: an optional sign followed by digits. -/
def pyInt? : List Char → Option Int
  | '-' :: ds => (pyDigits? ds).map (fun n => -(n : Int))
  | '+' :: ds => (pyDigits? ds).map (fun n => (n : Int))
  | ds => (pyDigits? ds).map (fun n => (n : Int))

/-- A parsed SLURM job id: an integer normally, or the raw token when
`int()` fails on a truthy token (`slurm.py` lines 74-81). -/
abbrev SlurmJobId := Sum Int String

/-- The marker `BatchSLURM.submit` searches for in the sbatch output. -/
def submitMarker : List Char := "Submitted batch job".data

/-- The job-id extraction of `BatchSLURM.submit`: find the marker, split the
rest of the output on whitespace, and take the token after the three marker
words, as an integer when possible. -/
def submit_parse_jobid (out : List Char) : Option SlurmJobId :=
  match strFind submitMarker out with
  | none => none
  | some i =>
    let L := pySplit (out.drop i)
    if h3 : 3 < L.length then
      let tok := L.get ⟨3, h3⟩
      match pyInt? tok with
      | some n => some (Sum.inl n)
      | none => if !tok.isEmpty then some (Sum.inr ⟨tok⟩) else none
    else none

/-- The error message `BatchSLURM.submit` returns when no job id was
parsed. -/
def submitErrorMessage : String :=
  "batch submission failed or could not parse " ++ "output to obtain the job id"

/-- The `(job id, error message)` components of `BatchSLURM.submit`'s
return value, as a function of the command output. -/
def BatchSLURM.submit_result (out : String) : Option SlurmJobId × String :=
  match submit_parse_jobid out.data with
  | none => (none, submitErrorMessage)
  | some j => (some j, "")

/-! ### Scheduler (`execlist.py`: TestBacklog, TestConstraint, TestExecList) -/

/-- A TestCase as the scheduler sees it: its TestSpec ID, its `np`
parameter (`int(getParameters().get('np',0))`), its runtime estimate, and
whether `getBlockingDependency()` is non-None. -/
structure TC where
  id : String
  np : Nat
  runtime : Nat
  blocked : Bool
deriving DecidableEq

instance : Inhabited TC := ⟨⟨"", 0, 0, false⟩⟩

/-- `TestConstraint.apply`: with a size cap, reject when
`max(int(np),1)` exceeds it; in all cases reject a test with a blocking
dependency.  `maxnp = none` models `TestConstraint(None)` (no size cap). -/
def TestConstraint.apply (maxnp : Option Nat) (t : TC) : Bool :=
  (match maxnp with
   | some m => decide (max t.np 1 ≤ m)
   | none => true) && !t.blocked

/-- The predicate of the `pop` loop: with no constraint object every entry
qualifies; with a constraint, `TestConstraint.apply` decides.  The
constraint argument is `none` for `pop()` and `some maxnp` for
`pop(TestConstraint(platform))`. -/
def constraintPred (constraint : Option (Option Nat)) (t : TC) : Bool :=
  match constraint with
  | none => true
  | some mnp => TestConstraint.apply mnp t

/-- The loop body of `execlist.py::bisect_left`, structurally recursive on
a fuel counter that bounds the number of iterations (the source's `while
lo < hi` loop halves `hi - lo` each step, so `tests.length` iterations
always suffice). -/
def bisectGo (tests : List TC) (np : Nat) : Nat → Nat → Nat → Nat
  | 0, lo, _ => lo
  | fuel + 1, lo, hi =>
    if lo < hi then
      let mid := (lo + hi) / 2
      let npmid := (tests.getD mid default).np
      if np < npmid then bisectGo tests np fuel (mid + 1) hi
      else bisectGo tests np fuel lo mid
    else lo

/-- `execlist.py::bisect_left`: on the np-descending test list, the first
index whose np is not greater than `np`. -/
def bisect_left (tests : List TC) (np : Nat) : Nat :=
  bisectGo tests np tests.length 0 tests.length

/-- `TestBacklog._get_starting_index`. -/
def get_starting_index (tests : List TC) (max_np : Option Nat) : Nat :=
  match max_np with
  | none => 0
  | some m => bisect_left tests m

/-- The scan-and-remove loop of `TestBacklog.pop`: return the first element
satisfying the predicate together with the list with that element removed
(`self.tests.pop(idx)`); when none qualifies the list is unchanged. -/
def popScan (pred : TC → Bool) : List TC → Option TC × List TC
  | [] => (none, [])
  | t :: ts =>
    if pred t then (some t, ts)
    else
      let r := popScan pred ts
      (r.1, t :: r.2)

/-- `TestBacklog.pop`: compute the starting index (0 without a constraint
object, `_get_starting_index(maxnp)` with one), then scan linearly from it.
Returns the popped test (or `none`) and the resulting backlog list. -/
def TestBacklog.pop (tests : List TC) (constraint : Option (Option Nat)) :
    Option TC × List TC :=
  let idx := match constraint with
    | none => 0
    | some mnp => get_starting_index tests mnp
  let r := popScan (constraintPred constraint) (tests.drop idx)
  (r.1, tests.take idx ++ r.2)

/-- The backlog is sorted by descending np (the first component of both
sort keys of `TestBacklog.sort`). -/
def npSortedDesc (tests : List TC) : Prop :=
  tests.Pairwise (fun a b => b.np ≤ a.np)

/-- The container state of `TestExecList`: the backlog plus the three
TestSpec-ID-keyed dicts `waiting`, `started`, `stopped`. -/
structure ExecListState where
  backlog : List TC
  waiting : List (String × TC)
  started : List (String × TC)
  stopped : List (String × TC)
deriving DecidableEq

/-- Python `d[k] = v` on an insertion-ordered dict of TestCases. -/
def dictInsert (d : List (String × TC)) (k : String) (v : TC) : List (String × TC) :=
  if d.any (fun p => p.1 == k) then
    d.map (fun p => if p.1 == k then (k, v) else p)
  else
    d ++ [(k, v)]

/-- `TestExecList._pop_next_test`: pop the backlog under
`TestConstraint(platform)` (`platform`, when given, contributes
`maxAvailableSize()`); a popped test is recorded in `waiting`. -/
def pop_next_test (st : ExecListState) (platform : Option Nat) :
    Option TC × ExecListState :=
  let r := TestBacklog.pop st.backlog (some platform)
  match r.1 with
  | some t =>
      (some t, { st with backlog := r.2, waiting := dictInsert st.waiting t.id t })
  | none => (none, st)

/-- `TestExecList.popNext`: pop under the platform's size constraint; only
when that yields nothing and no test is running (`len(self.started) == 0`),
pop again without the size constraint. -/
def popNext (st : ExecListState) (maxAvailableSize : Nat) :
    Option TC × ExecListState :=
  let r := pop_next_test st (some maxAvailableSize)
  if r.1.isNone && st.started.isEmpty then pop_next_test st none else r

/-- `TestExecList.moveToStarted` (the container action of `startTest`):
`waiting.pop(tid)` raises when absent (modelled as `none`); otherwise the
test moves from `waiting` to `started`. -/
def moveToStarted (st : ExecListState) (t : TC) : Option ExecListState :=
  match st.waiting.find? (fun p => p.1 == t.id) with
  | none => none
  | some _ =>
      some { st with
              waiting := st.waiting.eraseP (fun p => p.1 == t.id)
              started := dictInsert st.started t.id t }

/-- `TestExecList.testDone`: `started.pop(xid, None)` (no error when
absent) then `stopped[xid] = tcase`. -/
def testDone (st : ExecListState) (t : TC) : ExecListState :=
  { st with
    started := st.started.eraseP (fun p => p.1 == t.id)
    stopped := dictInsert st.stopped t.id t }

/-- All TestSpec IDs held by the four containers, in order. -/
def allIds (st : ExecListState) : List String :=
  st.backlog.map TC.id ++ st.waiting.map Prod.fst ++
    st.started.map Prod.fst ++ st.stopped.map Prod.fst

/-- The partition invariant: no TestSpec ID occurs in two containers (nor
twice in one). -/
def InvEL (st : ExecListState) : Prop := (allIds st).Nodup

instance (st : ExecListState) : Decidable (InvEL st) :=
  inferInstanceAs (Decidable (allIds st).Nodup)

/-! ### Dependency resolution (`TestList.py::find_tests_by_execute_directory_match`) -/

/-- Worker for shell-glob matching (`fnmatch.fnmatch` restricted to the `*`
and `?` wildcards; the resolver's patterns contain no character classes).
`*` matches any run of characters, including `/` (fnmatch does not treat
the path separator specially).  The fuel argument only bounds the
recursion: every call shrinks `|pattern| + |name|`, so
`|pattern| + |name| + 1` always suffices. -/
def globGo : Nat → List Char → List Char → Bool
  | 0, _, _ => false
  | _ + 1, [], [] => true
  | _ + 1, [], _ :: _ => false
  | fuel + 1, '*' :: ps, [] => globGo fuel ps []
  | fuel + 1, '*' :: ps, c :: cs =>
      globGo fuel ps (c :: cs) || globGo fuel ('*' :: ps) cs
  | _ + 1, '?' :: _, [] => false
  | fuel + 1, '?' :: ps, _ :: cs => globGo fuel ps cs
  | _ + 1, _ :: _, [] => false
  | fuel + 1, p :: ps, c :: cs => p == c && globGo fuel ps cs

/-- `fnmatch.fnmatch(name, pattern)` (posix: no case folding). -/
def fnmatch (name pat : List Char) : Bool :=
  globGo (pat.length + name.length + 1) pat name

/-- Index of the last `/` in a path, if any (`p.rfind('/')`). -/
def lastSlashIdx (s : List Char) : Option Nat :=
  ((s.enum.filter (fun p => p.2 == '/')).getLast?).map Prod.fst

/-- `str.rstrip('/')`. -/
def dropTrailingSlashes (s : List Char) : List Char :=
  ((s.reverse.dropWhile (fun c => c == '/')).reverse)

/-- `os.path.dirname` (posix): everything up to the last `/`, with
trailing slashes stripped unless the result is all slashes. -/
def dirnameChars (s : List Char) : List Char :=
  match lastSlashIdx s with
  | none => []
  | some j =>
      let head := s.take (j + 1)
      if !head.isEmpty && !(head.all (fun c => c == '/')) then
        dropTrailingSlashes head
      else head

/-- Python `path.split('/')`, keeping empty components. -/
def splitSlash : List Char → List (List Char)
  | [] => [[]]
  | c :: rest =>
      if c == '/' then [] :: splitSlash rest
      else
        match splitSlash rest with
        | g :: gs => (c :: g) :: gs
        | [] => [[c]]

/-- Python `'/'.join(comps)`. -/
def joinSlash : List (List Char) → List Char
  | [] => []
  | [x] => x
  | x :: xs => x ++ '/' :: joinSlash xs

/-- `os.path.normpath` (posix): collapse empty and `.` components,
resolve `..`, preserve up to two leading slashes. -/
def normpathChars (p : List Char) : List Char :=
  if p.isEmpty then ['.']
  else
    let initialSlashes : Nat :=
      if p.take 1 = ['/'] then
        if p.take 2 = ['/', '/'] ∧ ¬ p.take 3 = ['/', '/', '/'] then 2 else 1
      else 0
    let newComps := (splitSlash p).foldl (fun acc comp =>
      if comp = [] ∨ comp = ['.'] then acc
      else if ¬ comp = ['.', '.'] ∨ (initialSlashes = 0 ∧ acc = []) ∨
          (¬ acc = [] ∧ acc.getLast? = some ['.', '.']) then acc ++ [comp]
      else if ¬ acc = [] then acc.dropLast
      else acc) []
    let path := List.replicate initialSlashes '/' ++ joinSlash newComps
    if path.isEmpty then ['.'] else path

/-- The `tbase` prefix of `find_tests_by_execute_directory_match`:
`dirname(xdir)`, emptied when it is `.`, with a trailing `/` appended when
non-empty. -/
def tbaseOf (xdir : List Char) : List Char :=
  let tbase := dirnameChars xdir
  if tbase = ['.'] then []
  else if ¬ tbase.isEmpty then tbase ++ ['/']
  else tbase

/-- Priority tier 1: `normpath(tbase + pattern)`. -/
def tier1 (xdir pattern : String) (xdir_list : List String) : List String :=
  xdir_list.filter
    (fun x => fnmatch x.data (normpathChars (tbaseOf xdir.data ++ pattern.data)))

/-- Priority tier 2: `tbase + '*/' + pattern`. -/
def tier2 (xdir pattern : String) (xdir_list : List String) : List String :=
  xdir_list.filter
    (fun x => fnmatch x.data (tbaseOf xdir.data ++ '*' :: '/' :: pattern.data))

/-- Priority tier 3: the bare pattern. -/
def tier3 (pattern : String) (xdir_list : List String) : List String :=
  xdir_list.filter (fun x => fnmatch x.data pattern.data)

/-- Priority tier 4: `'*' + pattern`. -/
def tier4 (pattern : String) (xdir_list : List String) : List String :=
  xdir_list.filter (fun x => fnmatch x.data ('*' :: pattern.data))

/-- `TestList.py::find_tests_by_execute_directory_match`: the four tier
lists are built in one pass over `xdir_list`; the first non-empty one is
returned (as a set in the source; list order here is `xdir_list` order). -/
def find_tests_by_execute_directory_match
    (xdir pattern : String) (xdir_list : List String) : List String :=
  if ¬ tier1 xdir pattern xdir_list = [] then tier1 xdir pattern xdir_list
  else if ¬ tier2 xdir pattern xdir_list = [] then tier2 xdir pattern xdir_list
  else if ¬ tier3 pattern xdir_list = [] then tier3 pattern xdir_list
  else tier4 pattern xdir_list

/-! ### Analyze filtering (`TestList.py::filter_analyze_tests`,
`ParameterizeAnalyzeGroups.rebuild`) -/

/-- A TestSpec as the analyze filter sees it: grouping key
(`getFilepath()`, `getName()`), analyze flag, parameter dict, skip status
(reason plus the distinguished skip-by-parameter flag), and the
ParameterSet of an analyze test. -/
structure TSpec where
  filepath : String
  name : String
  analyze : Bool
  params : Dict
  skip : Option String
  skipByParam : Bool
  pset : ParameterSet
deriving DecidableEq

/-- `TestSpec.isAnalyze()`. -/
def TSpec.isAnalyze (t : TSpec) : Bool := t.analyze

/-- Modelled from the spec: `StatusHandler.skipTestByParameter` (the
StatusHandler class is not among the sources; the spec's TestStatus keeps
a distinguished "skip by parameter" flag). -/
def skipTestByParameter (t : TSpec) : Bool := t.skipByParam

/-- Modelled from the spec: `StatusHandler.skipTestCausingAnalyzeSkip`:
skipped for a reason other than the parameter skip. -/
def skipTestCausingAnalyzeSkip (t : TSpec) : Bool :=
  t.skip.isSome && !t.skipByParam

/-- Modelled from the spec: `StatusHandler.markSkip` on a TestSpec. -/
def markSkipT (t : TSpec) (reason : String) : TSpec := { t with skip := some reason }

/-- Group-map accumulation of `ParameterizeAnalyzeGroups.rebuild`: append
the test to its key's group, creating the group when absent. -/
def addToGroup (gm : List ((String × String) × List TSpec))
    (key : String × String) (t : TSpec) : List ((String × String) × List TSpec) :=
  if gm.any (fun e => e.1 == key) then
    gm.map (fun e => if e.1 == key then (e.1, e.2 ++ [t]) else e)
  else gm ++ [(key, [t])]

/-- `ParameterizeAnalyzeGroups.rebuild`: group all tests not skipped by
parameter under their `(filepath, name)` key. -/
def groupsRebuild (tspecs : List TSpec) : List ((String × String) × List TSpec) :=
  tspecs.foldl (fun gm t =>
    if skipTestByParameter t then gm
    else addToGroup gm (t.filepath, t.name) t) []

/-- The `evalfunc` closure of `filter_analyze_tests`: a parameter instance
survives iff it equals (as a dict) one of the collected sibling parameter
dicts. -/
def analyzeEvalfunc (paramsets : List Dict) (paramD : Dict) : Bool :=
  paramsets.any (fun D => dictBEq paramD D)

/-- `ParameterSet.applyParamFilter` as actually invoked by
`filter_analyze_tests` (TestList.py line 863): the argument is the plain
local function `evalfunc`, but the loop body calls
`param_filter.evaluate(instD)` (ParameterSet.py line 71), and a Python
function object has no `evaluate` attribute.  `_reconstructInstances()`
has already run; then the first replayed instance raises AttributeError,
so the call succeeds only when the replayed instance list is empty (the
loop body never executes and `instances` is set to the empty `newL`). -/
def ParameterSet.applyParamFilterPlainFn (ps : ParameterSet)
    (param_filter : Dict → Bool) : Except String ParameterSet :=
  let ps2 := ps.reconstructInstances
  if ps2.instances.isEmpty then Except.ok { ps2 with instances := [] }
  else Except.error
    "AttributeError: function object has no attribute evaluate"

/-- `filter_analyze_tests` on one group, with the source's actual dynamic
behavior: locate the analyze test (the loop keeps the last one); when a
sibling is skipped for a non-parameter reason, mark the analyze test
"analyze dependency skipped"; otherwise the attempted ParameterSet
filtering raises AttributeError for any analyze test whose replayed
instance list is non-empty (see `applyParamFilterPlainFn`), modelled as
`Except.error`. -/
def filter_analyze_group (grp : List TSpec) : Except String (List TSpec) :=
  match (grp.filter TSpec.isAnalyze).getLast? with
  | none => Except.ok grp
  | some a =>
      let skip_analyze := grp.any
        (fun t : TSpec => ! t.isAnalyze && skipTestCausingAnalyzeSkip t)
      let paramsets := (grp.filter
        (fun t : TSpec => ! t.isAnalyze && ! skipTestCausingAnalyzeSkip t)).map TSpec.params
      if skip_analyze then
        Except.ok (grp.map (fun t =>
          if t = a then markSkipT a "analyze dependency skipped" else t))
      else
        match a.pset.applyParamFilterPlainFn (analyzeEvalfunc paramsets) with
        | Except.ok pset2 =>
            Except.ok (grp.map (fun t => if t = a then { a with pset := pset2 } else t))
        | Except.error e => Except.error e

/-- `TestList.py::filter_analyze_tests` over the whole group map; the
first AttributeError aborts the pass. -/
def filter_analyze_tests (gm : List ((String × String) × List TSpec)) :
    Except String (List ((String × String) × List TSpec)) :=
  gm.mapM (fun e => (filter_analyze_group e.2).map (fun g => (e.1, g)))

/-- The else branch as the spec words it ("filter the analyze test's own
ParameterSet to only the parameter dicts of surviving non-analyze
siblings"): the behavior the source would have if `applyParamFilter` were
reached through its documented evaluator-object interface.  A second,
spec-side definition, kept to compare the source's AttributeError against
the intended result. -/
def filter_analyze_group_spec (grp : List TSpec) : List TSpec :=
  match (grp.filter TSpec.isAnalyze).getLast? with
  | none => grp
  | some a =>
      let skip_analyze := grp.any
        (fun t : TSpec => ! t.isAnalyze && skipTestCausingAnalyzeSkip t)
      let paramsets := (grp.filter
        (fun t : TSpec => ! t.isAnalyze && ! skipTestCausingAnalyzeSkip t)).map TSpec.params
      let a2 :=
        if skip_analyze then markSkipT a "analyze dependency skipped"
        else { a with pset := a.pset.applyParamFilter (analyzeEvalfunc paramsets) }
      grp.map (fun t => if t = a then a2 else t)

/-- Concrete C6 sibling with p = 1 (active). -/
def tsp1 : TSpec := ⟨"f.vvt", "T", false, [("p", "1")], none, false, ParameterSet.empty⟩

/-- Concrete C6 sibling with p = 2, skipped by the parameter filter. -/
def tsp2 : TSpec :=
  ⟨"f.vvt", "T", false, [("p", "2")], some "parameter expression failed", true,
    ParameterSet.empty⟩

/-- Concrete C6 sibling with p = 3 (active). -/
def tsp3 : TSpec := ⟨"f.vvt", "T", false, [("p", "3")], none, false, ParameterSet.empty⟩

/-- Concrete C6 analyze test, with the full p = 1,2,3 ParameterSet. -/
def tanC6 : TSpec :=
  ⟨"f.vvt", "T", true, [], none, false,
    ParameterSet.empty.addParameter "p" ["1", "2", "3"]⟩

/-- Concrete C6 sibling skipped for a non-parameter reason (cumulative
runtime), used to exercise the skip branch. -/
def tspSkipC6 : TSpec :=
  ⟨"f.vvt", "T", false, [("p", "2")], some "cummulative runtime threshhold", false,
    ParameterSet.empty⟩

/-! ### Background job runner (`trig/runjob.py`: Job, JobRunner) -/

/-- The Job state machine of `runjob.py::Job.getState`. -/
inductive JState where
  | setup
  | ready
  | run
  | done
deriving DecidableEq

/-- A job id: the `(name, machine, date)` triple of `Job.jobid` (name or
machine may be unset when construction failed early). -/
abbrev JobId := Option String × Option String × String

/-- A Job: the attributes relevant to submission (`name`, `machine`,
`date`, the sticky `exc` attribute) plus the state. -/
structure Job where
  name : Option String
  machine : Option String
  date : String
  exc : Option String
  state : JState
deriving DecidableEq

/-- `Job.jobid()`: the `(name, machine, date)` triple (name and machine
read with default None). -/
def Job.jobid (jb : Job) : JobId := (jb.name, jb.machine, jb.date)

/-- The registry of `JobRunner`: `jobdb` maps job ids to Jobs; `waiting`
maps a parked job's id to the id it waits on (the parked Job object itself
is the one stored in `jobdb`). -/
structure RunnerState where
  jobdb : List (JobId × Job)
  waiting : List (JobId × JobId)
deriving DecidableEq

/-- The `submit_job` arguments: the command words and the keyword
attributes the submission path reads. -/
structure SubmitArgs where
  args : List String
  name : Option String
  machine : Option String
  waitforjobid : Option JobId
deriving DecidableEq

/-- Python `str.strip()`. -/
def pyStripChars (s : List Char) : List Char :=
  ((s.dropWhile pyIsSpace).reverse.dropWhile pyIsSpace).reverse

/-- `os.path.basename`: everything after the last `/`. -/
def basenameChars (s : List Char) : List Char :=
  match lastSlashIdx s with
  | none => s
  | some j => s.drop (j + 1)

/-- The validity check of `Job.set` for the `name` and `machine`
attributes: truthy and equal to its own strip. -/
def validName (n : String) : Bool :=
  ! n.data.isEmpty && pyStripChars n.data == n.data

/-- The `waitforjobid` check and `Job.finalize` step at the end of
`submit_job`'s try block: verify the awaited job id exists, then finalize
(state becomes `ready`). -/
def finishWait (st : RunnerState) (sa : SubmitArgs) (jb : Job) : Job × Option String :=
  match sa.waitforjobid with
  | some w =>
      if st.jobdb.any (fun p => p.1 == w) then ({ jb with state := JState.ready }, none)
      else (jb, some "waitforjobid not in existing job list")
  | none => ({ jb with state := JState.ready }, none)

/-- The jobname computation of `submit_job`: the `name` keyword when
given, otherwise the basename of the command's first word (a whitespace
command raises an IndexError inside the try-block). -/
def compute_jobname (sa : SubmitArgs) : Except String String :=
  match sa.name with
  | some n => Except.ok n
  | none =>
    if sa.args.length == 1 then
      match pySplit (pyStripChars (sa.args.headD "").data) with
      | [] => Except.error "IndexError: list index out of range"
      | w :: _ => Except.ok ⟨basenameChars w⟩
    else Except.ok ⟨basenameChars (sa.args.headD "").data⟩

/-- The try block of `JobRunner.submit_job` (through `finalize`): build
the Job, computing its name from the keyword or the command, validating
attributes, and checking `waitforjobid`; any raised exception is returned
as the second component together with the partially built Job (still in
state `setup`). -/
def build_job (st : RunnerState) (sa : SubmitArgs) (date : String) :
    Job × Option String :=
  let jb0 : Job := { name := none, machine := none, date := date,
                     exc := none, state := JState.setup }
  if sa.args.isEmpty then (jb0, some "empty or no command given")
  else
    match compute_jobname sa with
    | Except.error e => (jb0, some e)
    | Except.ok jobname =>
        if ! validName jobname then
          (jb0, some ("invalid name value: " ++ jobname))
        else
          let jb1 := { jb0 with name := some jobname }
          match sa.machine with
          | some mm =>
              if ! validName mm then (jb1, some ("invalid machine value: " ++ mm))
              else finishWait st sa { jb1 with machine := some mm }
          | none => finishWait st sa jb1

/-- Python `d[k] = v` on the job registry. -/
def dictInsertJ (d : List (JobId × Job)) (k : JobId) (v : Job) :
    List (JobId × Job) :=
  if d.any (fun p => p.1 == k) then
    d.map (fun p => if p.1 == k then (k, v) else p)
  else d ++ [(k, v)]

/-- `JobRunner.launch_job` as it acts on the registry entry: a ready job
moves to state `run` (its thread is started); the source asserts the job
is ready before launching. -/
def launch_job_db (db : List (JobId × Job)) (jid : JobId) : List (JobId × Job) :=
  db.map (fun p =>
    if p.1 == jid then
      (p.1, if p.2.state == JState.ready then { p.2 with state := JState.run } else p.2)
    else p)

/-- The completion test of `JobRunner.isDone`: state `setup` or `done`. -/
def stateDoneB (s : JState) : Bool := s == JState.setup || s == JState.done

/-- `JobRunner.poll_jobs`: running jobs whose thread has finished (the
`threadDone` oracle models `Thread.is_alive`) move to `done`; then parked
jobs whose awaited job is in state `setup` or `done` are launched and
removed from `waiting`. -/
def poll_jobs (st : RunnerState) (threadDone : JobId → Bool) : RunnerState :=
  let db1 := st.jobdb.map (fun p =>
    if p.2.state == JState.run && threadDone p.1 then
      (p.1, { p.2 with state := JState.done })
    else p)
  let shouldLaunch : JobId × JobId → Bool := fun pr =>
    match db1.find? (fun q => q.1 == pr.2) with
    | some q => stateDoneB q.2.state
    | none => false
  let launched := (st.waiting.filter shouldLaunch).map Prod.fst
  { jobdb := launched.foldl (fun db jid => launch_job_db db jid) db1
    waiting := st.waiting.filter (fun pr => ! shouldLaunch pr) }

/-- `JobRunner.submit_job`: poll, build the Job; on an exception the Job
gets the sticky `exc` attribute and is still stored in `jobdb` (in state
`setup`); otherwise it is stored and either parked in `waiting` or
launched.  The job id is returned in every case. -/
def JobRunner.submit_job (st : RunnerState) (sa : SubmitArgs) (date : String)
    (threadDone : JobId → Bool) : JobId × RunnerState :=
  let st0 := poll_jobs st threadDone
  match build_job st0 sa date with
  | (jb, some e) =>
      let jb2 := { jb with exc := some e }
      (jb2.jobid, { st0 with jobdb := dictInsertJ st0.jobdb jb2.jobid jb2 })
  | (jb, none) =>
      let st1 : RunnerState := { st0 with jobdb := dictInsertJ st0.jobdb jb.jobid jb }
      match sa.waitforjobid with
      | some w => (jb.jobid, { st1 with waiting := st1.waiting ++ [(jb.jobid, w)] })
      | none => (jb.jobid, { st1 with jobdb := launch_job_db st1.jobdb jb.jobid })

/-- `JobRunner.isDone` (the body of `poll_job`): poll, then report whether
the job's state is `setup` or `done`; an unknown job id raises (modelled
as `none`). -/
def JobRunner.isDone (st : RunnerState) (threadDone : JobId → Bool)
    (jid : JobId) : Option Bool :=
  let st2 := poll_jobs st threadDone
  (st2.jobdb.find? (fun p => p.1 == jid)).map (fun p => stateDoneB p.2.state)

end VVTest

namespace VVTest

/-- Helper: `addParameterGroup` appends the new group to `params`. -/
theorem addParameterGroup_params (ps : ParameterSet)
    (names : List String) (values_list : List (List String)) :
    (ps.addParameterGroup names values_list).params = ps.params ++ [(names, values_list)] :=
  rfl

/-- Helper: replaying a list of groups from an accumulator appends the
group list to the accumulator's `params`. -/
theorem foldl_addParameterGroup_params (l : List (List String × List (List String))) :
    ∀ acc : ParameterSet,
      (l.foldl (fun acc nv => acc.addParameterGroup nv.1 nv.2) acc).params =
        acc.params ++ l := by
  induction l with
  | nil => intro acc; simp
  | cons nv rest ih =>
      intro acc
      simp only [List.foldl_cons, ih, addParameterGroup_params, List.append_assoc,
        List.singleton_append]

/-- Helper: reconstruction preserves the recorded groups. -/
theorem reconstructInstances_params (ps : ParameterSet) :
    ps.reconstructInstances.params = ps.params := by
  simp [ParameterSet.reconstructInstances, foldl_addParameterGroup_params,
    ParameterSet.empty]

/-- Helper: reconstruction only looks at the recorded groups. -/
theorem reconstructInstances_eq_of_params_eq (ps1 ps2 : ParameterSet)
    (h : ps1.params = ps2.params) :
    ps1.reconstructInstances = ps2.reconstructInstances := by
  simp [ParameterSet.reconstructInstances, h]

/-- Helper: the instances produced by `applyParamFilter` are the replayed
instances restricted to the filter, and the groups are unchanged. -/
theorem applyParamFilter_eq (ps : ParameterSet) (f : Dict → Bool) :
    ps.applyParamFilter f =
      { params := ps.params, instances := ps.reconstructInstances.instances.filter f } := by
  simp [ParameterSet.applyParamFilter, reconstructInstances_params]

/-- C1: the claim (and the docstrings of `ParameterSet` and
`accumulate_parameter_group_list`) state that `getInstances()` returns the
four instances with the earlier-added group `A` most significant:
`{A:a1,B:b1,C:c1}, {A:a1,B:b2,C:c2}, {A:a2,B:b1,C:c1}, {A:a2,B:b2,C:c2}`.
The code instead iterates the new group's value tuples in the outer loop, so
the later-added group is most significant: evaluating the code on the claim's
input yields `{A:a1,B:b1,C:c1}, {A:a2,B:b1,C:c1}, {A:a1,B:b2,C:c2},
{A:a2,B:b2,C:c2}`, which differs from the documented order. -/
theorem getInstances_order_code_bug :
    psC1.getInstances =
      [[("A", "a1"), ("B", "b1"), ("C", "c1")],
       [("A", "a2"), ("B", "b1"), ("C", "c1")],
       [("A", "a1"), ("B", "b2"), ("C", "c2")],
       [("A", "a2"), ("B", "b2"), ("C", "c2")]] ∧
    psC1.getInstances ≠
      [[("A", "a1"), ("B", "b1"), ("C", "c1")],
       [("A", "a1"), ("B", "b2"), ("C", "c2")],
       [("A", "a2"), ("B", "b1"), ("C", "c1")],
       [("A", "a2"), ("B", "b2"), ("C", "c2")]] := by
  constructor
  · rfl
  · decide

/-- C8: `applyParamFilter` first replays the recorded groups and then keeps
exactly the instances satisfying the predicate; hence the result is
independent of any previously applied filter, and filtering with an
always-true predicate restores the full replayed Cartesian product. -/
theorem applyParamFilter_independent (ps : ParameterSet) (p q : Dict → Bool) :
    (ps.applyParamFilter q).instances = ps.reconstructInstances.instances.filter q ∧
    (ps.applyParamFilter p).applyParamFilter q = ps.applyParamFilter q ∧
    (ps.applyParamFilter (fun _ => true)).instances = ps.reconstructInstances.instances := by
  refine ⟨by rw [applyParamFilter_eq], ?_, ?_⟩
  · rw [applyParamFilter_eq ps p, applyParamFilter_eq, applyParamFilter_eq]
    have h : (ParameterSet.mk ps.params
        (ps.reconstructInstances.instances.filter p)).reconstructInstances =
        ps.reconstructInstances := by
      apply reconstructInstances_eq_of_params_eq
      rfl
    rw [h]
  · rw [applyParamFilter_eq]
    simp

/-! ### Scheduler lemmas -/

/-- Helper: the scan loop of `TestBacklog.pop` returns the first
predicate-satisfying element and the list with it removed. -/
theorem popScan_eq (pred : TC → Bool) (l : List TC) :
    popScan pred l = (l.find? pred, l.eraseP pred) := by
  induction l with
  | nil => rfl
  | cons t ts ih =>
      by_cases hp : pred t
      · simp [popScan, hp, List.find?, List.eraseP_cons]
      · simp [popScan, hp, List.find?, List.eraseP_cons, ih]

/-- Helper: a found element is a permutation head of the list with it
erased. -/
theorem find?_eraseP_perm {α : Type} (p : α → Bool) :
    ∀ (l : List α) (a : α), l.find? p = some a → l.Perm (a :: l.eraseP p) := by
  intro l
  induction l with
  | nil => intro a h; simp [List.find?] at h
  | cons x xs ih =>
      intro a h
      by_cases hp : p x
      · rw [List.find?_cons_of_pos _ hp] at h
        cases h
        simp [List.eraseP_cons, hp]
      · rw [List.find?_cons_of_neg _ hp] at h
        have hperm := ih a h
        simp only [List.eraseP_cons, hp, Bool.false_eq_true, if_false, cond_false]
        exact (hperm.cons x).trans (List.Perm.swap a x _)

/-- Helper: when no element of the prefix before the starting index
satisfies the predicate, scanning from the starting index agrees with
scanning the whole list. -/
theorem pop_take_scan (pred : TC → Bool) :
    ∀ (tests : List TC) (idx : Nat),
      (∀ t ∈ tests.take idx, pred t = false) →
      ((popScan pred (tests.drop idx)).1,
        tests.take idx ++ (popScan pred (tests.drop idx)).2) = popScan pred tests := by
  intro tests
  induction tests with
  | nil => intro idx _; simp [popScan]
  | cons t ts ih =>
      intro idx h
      cases idx with
      | zero => simp
      | succ k =>
          have ht : pred t = false := h t (by simp)
          have hts : ∀ u ∈ ts.take k, pred u = false := by
            intro u hu
            exact h u (by simp [hu])
          have := ih k hts
          simp only [List.drop_succ_cons, List.take_succ_cons, popScan, ht,
            Bool.false_eq_true, if_false, List.cons_append]
          rw [← this]

/-- Helper: a test popped under a constraint satisfies the constraint's
predicate, and the backlog is the popped test plus the returned list. -/
theorem TestBacklog_pop_some (tests : List TC) (c : Option (Option Nat)) (t : TC)
    (h : (TestBacklog.pop tests c).1 = some t) :
    constraintPred c t = true ∧
      tests.Perm (t :: (TestBacklog.pop tests c).2) := by
  unfold TestBacklog.pop at h ⊢
  simp only [popScan_eq] at h ⊢
  refine ⟨List.find?_some h, ?_⟩
  have key : ∀ idx : Nat, (tests.drop idx).find? (constraintPred c) = some t →
      tests.Perm
        (t :: (tests.take idx ++ (tests.drop idx).eraseP (constraintPred c))) := by
    intro idx hfind
    have hperm := find?_eraseP_perm _ _ _ hfind
    have h2 := (List.Perm.append_left (tests.take idx) hperm).trans List.perm_middle
    rw [List.take_append_drop idx tests] at h2
    exact h2
  exact key _ h

/-- Helper: on an np-descending list, later entries have np no larger than
earlier ones. -/
theorem npSortedDesc_get (tests : List TC) (hs : npSortedDesc tests) {i j : Nat}
    (hi : i < tests.length) (hj : j < tests.length) (hij : i < j) :
    (tests.get ⟨j, hj⟩).np ≤ (tests.get ⟨i, hi⟩).np :=
  List.pairwise_iff_get.mp hs ⟨i, hi⟩ ⟨j, hj⟩ hij

/-- Helper: binary-search loop invariant on an np-descending list: every
position below the returned index has np above the cap, and every position
at or beyond it has np at most the cap. -/
theorem bisectGo_inv (tests : List TC) (m : Nat) (hs : npSortedDesc tests) :
    ∀ (fuel lo hi : Nat), hi ≤ tests.length → lo ≤ hi → hi - lo ≤ fuel →
      (∀ j (hj : j < tests.length), j < lo → m < (tests.get ⟨j, hj⟩).np) →
      (∀ j (hj : j < tests.length), hi ≤ j → (tests.get ⟨j, hj⟩).np ≤ m) →
      (∀ j (hj : j < tests.length), j < bisectGo tests m fuel lo hi →
          m < (tests.get ⟨j, hj⟩).np) ∧
      (∀ j (hj : j < tests.length), bisectGo tests m fuel lo hi ≤ j →
          (tests.get ⟨j, hj⟩).np ≤ m) := by
  intro fuel
  induction fuel with
  | zero =>
      intro lo hi hhi hlohi hfuel hlow hhigh
      simp only [bisectGo]
      have heq : lo = hi := by omega
      exact ⟨fun j hj hlt => hlow j hj hlt,
             fun j hj hge => hhigh j hj (by omega)⟩
  | succ fuel ih =>
      intro lo hi hhi hlohi hfuel hlow hhigh
      simp only [bisectGo]
      by_cases hlh : lo < hi
      · rw [if_pos hlh]
        have hmidlo : lo ≤ (lo + hi) / 2 := by omega
        have hmidhi : (lo + hi) / 2 < hi := by omega
        have hmidlen : (lo + hi) / 2 < tests.length := lt_of_lt_of_le hmidhi hhi
        rw [List.getD_eq_get tests default hmidlen]
        by_cases hcmp : m < (tests.get ⟨(lo + hi) / 2, hmidlen⟩).np
        · rw [if_pos hcmp]
          refine ih ((lo + hi) / 2 + 1) hi hhi (by omega) (by omega) ?_ hhigh
          intro j hj hjlt
          rcases Nat.lt_or_ge j lo with h1 | h2
          · exact hlow j hj h1
          · rcases Nat.lt_or_eq_of_le (Nat.lt_succ_iff.mp hjlt) with hjm | hjm
            · exact lt_of_lt_of_le hcmp (npSortedDesc_get tests hs hj hmidlen hjm)
            · have : (⟨j, hj⟩ : Fin tests.length) = ⟨(lo + hi) / 2, hmidlen⟩ := by
                apply Fin.ext; exact hjm
              rw [this]
              exact hcmp
        · rw [if_neg hcmp]
          refine ih lo ((lo + hi) / 2) (le_of_lt hmidlen) (by omega) (by omega) hlow ?_
          intro j hj hge
          rcases Nat.lt_or_eq_of_le hge with hjm | hjm
          · exact le_trans (npSortedDesc_get tests hs hmidlen hj hjm) (le_of_not_lt hcmp)
          · have : (⟨j, hj⟩ : Fin tests.length) = ⟨(lo + hi) / 2, hmidlen⟩ := by
              apply Fin.ext; exact hjm.symm
            rw [this]
            exact le_of_not_lt hcmp
      · rw [if_neg hlh]
        have heq : lo = hi := by omega
        exact ⟨fun j hj hlt => hlow j hj hlt,
               fun j hj hge => hhigh j hj (by omega)⟩

/-- Helper: `bisect_left` on an np-descending list returns the first index
whose np does not exceed the cap. -/
theorem bisect_left_inv (tests : List TC) (m : Nat) (hs : npSortedDesc tests) :
    (∀ j (hj : j < tests.length), j < bisect_left tests m →
        m < (tests.get ⟨j, hj⟩).np) ∧
    (∀ j (hj : j < tests.length), bisect_left tests m ≤ j →
        (tests.get ⟨j, hj⟩).np ≤ m) := by
  exact bisectGo_inv tests m hs tests.length 0 tests.length (le_refl _)
    (Nat.zero_le _) (by omega)
    (fun j hj hlt => absurd hlt (Nat.not_lt_zero j))
    (fun j hj hge => absurd hj (not_lt_of_ge hge))

/-- Helper: membership in a take-prefix, by position. -/
theorem forall_mem_take {α : Type} (P : α → Prop) :
    ∀ (l : List α) (n : Nat),
      (∀ j (hj : j < l.length), j < n → P (l.get ⟨j, hj⟩)) →
      ∀ t ∈ l.take n, P t := by
  intro l
  induction l with
  | nil => intro n _ t ht; simp at ht
  | cons x xs ih =>
      intro n h t ht
      cases n with
      | zero => simp at ht
      | succ k =>
          rw [List.take_succ_cons] at ht
          rcases List.mem_cons.mp ht with rfl | hmem
          · exact h 0 (by simp) (Nat.succ_pos k)
          · exact ih k
              (fun j hj hjk => h (j + 1) (by simp [Nat.succ_lt_succ hj])
                (Nat.succ_lt_succ hjk)) t hmem

/-- Helper: a test whose np exceeds the cap fails the size constraint. -/
theorem apply_false_of_np_gt (m : Nat) (t : TC) (h : m < t.np) :
    TestConstraint.apply (some m) t = false := by
  have hmax : ¬ max t.np 1 ≤ m := by omega
  simp [TestConstraint.apply, hmax]

/-- Helper: under the size constraint `maxnp = m` on an np-descending
backlog, `pop` behaves as a first-match removal over the whole list. -/
theorem pop_constrained_eq (tests : List TC) (m : Nat) (hs : npSortedDesc tests) :
    TestBacklog.pop tests (some (some m)) =
      (tests.find? (TestConstraint.apply (some m)),
        tests.eraseP (TestConstraint.apply (some m))) := by
  have hfalse : ∀ t ∈ tests.take (bisect_left tests m),
      constraintPred (some (some m)) t = false := by
    refine forall_mem_take _ tests _ ?_
    intro j hj hjlt
    exact apply_false_of_np_gt m _ ((bisect_left_inv tests m hs).1 j hj hjlt)
  have h1 : TestBacklog.pop tests (some (some m)) =
      ((popScan (constraintPred (some (some m))) (tests.drop (bisect_left tests m))).1,
        tests.take (bisect_left tests m) ++
          (popScan (constraintPred (some (some m)))
            (tests.drop (bisect_left tests m))).2) := rfl
  rw [h1, pop_take_scan _ tests _ hfalse, popScan_eq]
  rfl

/-- Helper: a size cap of 0 rejects every test (`max(int(np),1)` is at
least 1), so `pop` finds nothing and leaves the list unchanged. -/
theorem pop_zero (tests : List TC) :
    TestBacklog.pop tests (some (some 0)) = (none, tests) := by
  have hall : ∀ t : TC, constraintPred (some (some 0)) t = false := by
    intro t
    have hmax : ¬ max t.np 1 ≤ 0 := by omega
    simp [constraintPred, TestConstraint.apply, hmax]
  have h1 : TestBacklog.pop tests (some (some 0)) =
      ((popScan (constraintPred (some (some 0))) (tests.drop (bisect_left tests 0))).1,
        tests.take (bisect_left tests 0) ++
          (popScan (constraintPred (some (some 0)))
            (tests.drop (bisect_left tests 0))).2) := rfl
  rw [h1, popScan_eq]
  rw [List.find?_eq_none.mpr (fun x _ => by simp [hall x]),
    List.eraseP_of_forall_not (fun a _ => by simp [hall a]),
    List.take_append_drop]

/-- C3: `TestBacklog.pop` under a size cap `m` on the np-descending-sorted
backlog: the binary search returns the first index whose np is within the
cap (everything before it has np above the cap); the pop returns and
removes the first test satisfying `TestConstraint.apply` (effective np
within the cap and no blocking dependency), returning `none` with the list
unchanged when none qualifies; and a cap of 0 always returns `none`. -/
theorem TestBacklog_pop_spec (tests : List TC) (m : Nat) (hs : npSortedDesc tests) :
    (∀ j (hj : j < tests.length), j < bisect_left tests m →
        m < (tests.get ⟨j, hj⟩).np) ∧
    (∀ hb : bisect_left tests m < tests.length,
        (tests.get ⟨bisect_left tests m, hb⟩).np ≤ m) ∧
    TestBacklog.pop tests (some (some m)) =
      (tests.find? (TestConstraint.apply (some m)),
        tests.eraseP (TestConstraint.apply (some m))) ∧
    TestBacklog.pop tests (some (some 0)) = (none, tests) := by
  refine ⟨(bisect_left_inv tests m hs).1, ?_, pop_constrained_eq tests m hs,
    pop_zero tests⟩
  intro hb
  exact (bisect_left_inv tests m hs).2 _ hb (le_refl _)

/-- The concrete np-descending backlog used to witness C3. -/
def backlogW : List TC := [⟨"a", 4, 10, false⟩, ⟨"b", 2, 100, true⟩, ⟨"c", 1, 5, false⟩]

/-- C3 witness: `TestBacklog_pop_spec` applied to a concrete sorted
backlog with cap 2 (the np=4 test is size-rejected, the np=2 test is
dependency-blocked, so the np=1 test is returned) and cap 0. -/
theorem TestBacklog_pop_spec_witness :
    npSortedDesc backlogW ∧
    (TestBacklog.pop backlogW (some (some 2)) =
      (backlogW.find? (TestConstraint.apply (some 2)),
        backlogW.eraseP (TestConstraint.apply (some 2))) ∧
      TestBacklog.pop backlogW (some (some 0)) = (none, backlogW)) := by
  have hsorted : npSortedDesc backlogW := by
    simp [npSortedDesc, backlogW, List.pairwise_cons]
  exact ⟨hsorted, (TestBacklog_pop_spec backlogW 2 hsorted).2.2.1,
    (TestBacklog_pop_spec backlogW 2 hsorted).2.2.2⟩

/-- C4: `popNext` first pops under the platform size constraint; a
successful constrained pop is returned as-is; while any test is running
(`started` non-empty) the promotion pop never happens, and consequently any
test returned while tests are running satisfies the size constraint
(effective np within `maxAvailableSize`), so an oversize test is never
returned while a test is running. -/
theorem popNext_spec (st : ExecListState) (m : Nat) :
    (∀ t est, pop_next_test st (some m) = (some t, est) →
        popNext st m = (some t, est)) ∧
    (st.started ≠ [] → popNext st m = pop_next_test st (some m)) ∧
    (st.started ≠ [] → ∀ t est, popNext st m = (some t, est) →
        max t.np 1 ≤ m) := by
  have hstart : st.started ≠ [] → popNext st m = pop_next_test st (some m) := by
    intro hne
    have hne' : st.started.isEmpty = false := by
      cases hsl : st.started with
      | nil => exact absurd hsl hne
      | cons a l => rfl
    simp [popNext, hne']
  refine ⟨?_, hstart, ?_⟩
  · intro t est hp
    simp [popNext, hp]
  · intro hne t est hp
    rw [hstart hne] at hp
    have hp1 : (TestBacklog.pop st.backlog (some (some m))).1 = some t := by
      simp only [pop_next_test] at hp
      rcases hP : TestBacklog.pop st.backlog (some (some m)) with ⟨r1, r2⟩
      rw [hP] at hp
      cases r1 with
      | none => simp at hp
      | some t2 =>
          simp only [Prod.mk.injEq, Option.some.injEq] at hp
          simp [hp.1]
    have happ := (TestBacklog_pop_some st.backlog (some (some m)) t hp1).1
    simp only [constraintPred, TestConstraint.apply, Bool.and_eq_true,
      decide_eq_true_eq] at happ
    exact happ.1

/-- The concrete scheduler state used to witness C4: one oversize backlog
test while one test is running. -/
def stW4 : ExecListState :=
  ⟨[⟨"big", 8, 5, false⟩], [], [("r", ⟨"r", 2, 3, false⟩)], []⟩

/-- C4 witness: `popNext_spec` applied with a running test and cap 4; the
promotion pop is suppressed and any returned test fits within the cap. -/
theorem popNext_spec_witness :
    stW4.started ≠ [] ∧ popNext stW4 4 = pop_next_test stW4 (some 4) ∧
    (∀ t est, popNext stW4 4 = (some t, est) → max t.np 1 ≤ 4) :=
  ⟨by decide, (popNext_spec stW4 4).2.1 (by decide),
    fun t est h => (popNext_spec stW4 4).2.2 (by decide) t est h⟩

/-- Helper: inserting a fresh key into a TestCase dict appends it. -/
theorem dictInsert_not_mem (d : List (String × TC)) (k : String) (v : TC)
    (h : ¬ k ∈ d.map Prod.fst) : dictInsert d k v = d ++ [(k, v)] := by
  have hany : d.any (fun p => p.1 == k) = false := by
    rw [List.any_eq_false]
    intro p hp
    simp only [beq_iff_eq]
    intro hpk
    exact h (hpk ▸ List.mem_map_of_mem Prod.fst hp)
  simp [dictInsert, hany]

/-- Helper: the partition invariant yields the pairwise disjointness and
per-container uniqueness of the held IDs. -/
theorem InvEL_parts (st : ExecListState) (h : InvEL st) :
    (st.backlog.map TC.id).Disjoint (st.waiting.map Prod.fst) ∧
    (st.waiting.map Prod.fst).Disjoint (st.started.map Prod.fst) ∧
    (st.started.map Prod.fst).Disjoint (st.stopped.map Prod.fst) ∧
    (st.waiting.map Prod.fst).Nodup ∧ (st.started.map Prod.fst).Nodup := by
  unfold InvEL allIds at h
  simp only [List.nodup_append, List.disjoint_append_right,
    List.disjoint_append_left] at h
  tauto

/-- Helper: a successful `_pop_next_test` preserves the partition: the
popped test moves from the backlog to `waiting`, the multiset of held IDs
is unchanged, and so is the total count. -/
theorem pop_next_test_partition (st : ExecListState) (hinv : InvEL st)
    (c : Option Nat) (t : TC) (st2 : ExecListState)
    (hp : pop_next_test st c = (some t, st2)) :
    InvEL st2 ∧ (allIds st2).Perm (allIds st) ∧
    st2.backlog.length + st2.waiting.length + st2.started.length + st2.stopped.length
      = st.backlog.length + st.waiting.length + st.started.length + st.stopped.length ∧
    t ∈ st.backlog ∧ t.id ∈ st2.waiting.map Prod.fst := by
  simp only [pop_next_test] at hp
  rcases hP : TestBacklog.pop st.backlog (some c) with ⟨r1, r2⟩
  rw [hP] at hp
  cases r1 with
  | none => simp at hp
  | some t2 =>
      simp only [Prod.mk.injEq, Option.some.injEq] at hp
      obtain ⟨rfl, rfl⟩ := hp
      have hpop1 : (TestBacklog.pop st.backlog (some c)).1 = some t2 := by rw [hP]
      have hperm := (TestBacklog_pop_some st.backlog (some c) t2 hpop1).2
      rw [hP] at hperm
      have htmem : t2 ∈ st.backlog := hperm.mem_iff.mpr (List.mem_cons_self t2 r2)
      have htid : t2.id ∈ st.backlog.map TC.id := List.mem_map_of_mem TC.id htmem
      have hnw : ¬ t2.id ∈ st.waiting.map Prod.fst :=
        fun hw => (InvEL_parts st hinv).1 htid hw
      have hwait : dictInsert st.waiting t2.id t2 = st.waiting ++ [(t2.id, t2)] :=
        dictInsert_not_mem _ _ _ hnw
      have hids : (st.backlog.map TC.id).Perm (t2.id :: r2.map TC.id) := by
        simpa using hperm.map TC.id
      have hpermAll :
          (allIds { backlog := r2, waiting := dictInsert st.waiting t2.id t2,
                    started := st.started, stopped := st.stopped }).Perm (allIds st) := by
        rw [List.perm_iff_count]
        intro a
        have hc := List.perm_iff_count.mp hids a
        simp only [allIds, hwait, List.map_append, List.map_cons, List.map_nil,
          List.count_append, List.count_cons, List.count_nil] at hc ⊢
        omega
      refine ⟨(hpermAll.nodup_iff).mpr hinv, hpermAll, ?_, htmem, ?_⟩
      · have hlen := hpermAll.length_eq
        simp [allIds, hwait] at hlen
        simp [hwait]
        omega
      · simp [hwait]

/-- Helper: a successful `moveToStarted` preserves the partition: the test
moves from `waiting` to `started`. -/
theorem moveToStarted_partition (st : ExecListState) (hinv : InvEL st)
    (t : TC) (st2 : ExecListState) (hp : moveToStarted st t = some st2) :
    InvEL st2 ∧ (allIds st2).Perm (allIds st) ∧
    st2.backlog.length + st2.waiting.length + st2.started.length + st2.stopped.length
      = st.backlog.length + st.waiting.length + st.started.length + st.stopped.length ∧
    t.id ∈ st2.started.map Prod.fst ∧ ¬ t.id ∈ st2.waiting.map Prod.fst := by
  unfold moveToStarted at hp
  cases hf : st.waiting.find? (fun p => p.1 == t.id) with
  | none => rw [hf] at hp; simp at hp
  | some pr =>
      rw [hf] at hp
      simp only [Option.some.injEq] at hp
      subst hp
      have hprkey : pr.1 = t.id := by
        have := List.find?_some hf
        simpa [beq_iff_eq] using this
      have hwperm : st.waiting.Perm
          (pr :: st.waiting.eraseP (fun p => p.1 == t.id)) :=
        find?_eraseP_perm _ _ _ hf
      have hwk : (st.waiting.map Prod.fst).Perm
          (t.id :: (st.waiting.eraseP (fun p => p.1 == t.id)).map Prod.fst) := by
        simpa [hprkey] using hwperm.map Prod.fst
      have htid_w : t.id ∈ st.waiting.map Prod.fst :=
        hwk.mem_iff.mpr (List.mem_cons_self _ _)
      have hns : ¬ t.id ∈ st.started.map Prod.fst :=
        fun hs => (InvEL_parts st hinv).2.1 htid_w hs
      have hstart : dictInsert st.started t.id t = st.started ++ [(t.id, t)] :=
        dictInsert_not_mem _ _ _ hns
      have hpermAll :
          (allIds { backlog := st.backlog,
                    waiting := st.waiting.eraseP (fun p => p.1 == t.id),
                    started := dictInsert st.started t.id t,
                    stopped := st.stopped }).Perm (allIds st) := by
        rw [List.perm_iff_count]
        intro a
        have hc := List.perm_iff_count.mp hwk a
        simp only [allIds, hstart, List.map_append, List.map_cons, List.map_nil,
          List.count_append, List.count_cons, List.count_nil] at hc ⊢
        omega
      have hnodup_eW : ¬ t.id ∈
          (st.waiting.eraseP (fun p => p.1 == t.id)).map Prod.fst := by
        have hwnodup : (st.waiting.map Prod.fst).Nodup := (InvEL_parts st hinv).2.2.2.1
        have := (hwk.nodup_iff).mp hwnodup
        exact (List.nodup_cons.mp this).1
      refine ⟨(hpermAll.nodup_iff).mpr hinv, hpermAll, ?_, ?_, hnodup_eW⟩
      · have hlen := hpermAll.length_eq
        simp [allIds, hstart] at hlen
        simp [hstart]
        omega
      · simp [hstart]

/-- Helper: `testDone` on a started test preserves the partition: the test
moves from `started` to `stopped`. -/
theorem testDone_partition (st : ExecListState) (hinv : InvEL st)
    (t : TC) (hmem : t.id ∈ st.started.map Prod.fst) :
    InvEL (testDone st t) ∧ (allIds (testDone st t)).Perm (allIds st) ∧
    (testDone st t).backlog.length + (testDone st t).waiting.length +
        (testDone st t).started.length + (testDone st t).stopped.length
      = st.backlog.length + st.waiting.length + st.started.length + st.stopped.length ∧
    t.id ∈ (testDone st t).stopped.map Prod.fst ∧
    ¬ t.id ∈ (testDone st t).started.map Prod.fst := by
  obtain ⟨pr0, hpr0mem, hpr0⟩ := List.mem_map.mp hmem
  have hfsome : ∃ pr, st.started.find? (fun p => p.1 == t.id) = some pr := by
    cases hfq : st.started.find? (fun p => p.1 == t.id) with
    | none =>
        have hno := List.find?_eq_none.mp hfq pr0 hpr0mem
        rw [hpr0] at hno
        simp at hno
    | some pr => exact ⟨pr, rfl⟩
  obtain ⟨pr, hf⟩ := hfsome
  have hprkey : pr.1 = t.id := by
    have := List.find?_some hf
    simpa [beq_iff_eq] using this
  have hsperm : st.started.Perm
      (pr :: st.started.eraseP (fun p => p.1 == t.id)) :=
    find?_eraseP_perm _ _ _ hf
  have hsk : (st.started.map Prod.fst).Perm
      (t.id :: (st.started.eraseP (fun p => p.1 == t.id)).map Prod.fst) := by
    simpa [hprkey] using hsperm.map Prod.fst
  have hnp : ¬ t.id ∈ st.stopped.map Prod.fst :=
    fun hs => (InvEL_parts st hinv).2.2.1 hmem hs
  have hstop : dictInsert st.stopped t.id t = st.stopped ++ [(t.id, t)] :=
    dictInsert_not_mem _ _ _ hnp
  have hpermAll : (allIds (testDone st t)).Perm (allIds st) := by
    rw [List.perm_iff_count]
    intro a
    have hc := List.perm_iff_count.mp hsk a
    simp only [allIds, testDone, hstop, List.map_append, List.map_cons, List.map_nil,
      List.count_append, List.count_cons, List.count_nil] at hc ⊢
    omega
  have hnodup_eS : ¬ t.id ∈
      (st.started.eraseP (fun p => p.1 == t.id)).map Prod.fst := by
    have hsnodup : (st.started.map Prod.fst).Nodup := (InvEL_parts st hinv).2.2.2.2
    have := (hsk.nodup_iff).mp hsnodup
    exact (List.nodup_cons.mp this).1
  refine ⟨(hpermAll.nodup_iff).mpr hinv, hpermAll, ?_, ?_, ?_⟩
  · have hlen := hpermAll.length_eq
    simp [allIds, testDone, hstop] at hlen
    simp [testDone, hstop]
    omega
  · simp [testDone, hstop]
  · simpa [testDone] using hnodup_eS

/-- C7: the scheduler's container operations preserve the partition of
active tests: a successful `popNext` moves the popped test from the backlog
to `waiting`, `moveToStarted` (the container step of `startTest`) moves it
from `waiting` to `started`, and `testDone` moves it from `started` to
`stopped`; in each case the multiset of held test IDs is unchanged (so each
active test remains in exactly one container) and the total count
`|backlog| + |waiting| + |started| + |stopped|` is preserved. -/
theorem execlist_partition_spec (st : ExecListState) (hinv : InvEL st) :
    (∀ (m : Nat) (t : TC) (st2 : ExecListState), popNext st m = (some t, st2) →
        InvEL st2 ∧ (allIds st2).Perm (allIds st) ∧
        st2.backlog.length + st2.waiting.length + st2.started.length +
            st2.stopped.length
          = st.backlog.length + st.waiting.length + st.started.length +
            st.stopped.length ∧
        t ∈ st.backlog ∧ t.id ∈ st2.waiting.map Prod.fst) ∧
    (∀ (t : TC) (st2 : ExecListState), moveToStarted st t = some st2 →
        InvEL st2 ∧ (allIds st2).Perm (allIds st) ∧
        st2.backlog.length + st2.waiting.length + st2.started.length +
            st2.stopped.length
          = st.backlog.length + st.waiting.length + st.started.length +
            st.stopped.length ∧
        t.id ∈ st2.started.map Prod.fst ∧ ¬ t.id ∈ st2.waiting.map Prod.fst) ∧
    (∀ t : TC, t.id ∈ st.started.map Prod.fst →
        InvEL (testDone st t) ∧ (allIds (testDone st t)).Perm (allIds st) ∧
        (testDone st t).backlog.length + (testDone st t).waiting.length +
            (testDone st t).started.length + (testDone st t).stopped.length
          = st.backlog.length + st.waiting.length + st.started.length +
            st.stopped.length ∧
        t.id ∈ (testDone st t).stopped.map Prod.fst ∧
        ¬ t.id ∈ (testDone st t).started.map Prod.fst) := by
  refine ⟨?_, fun t st2 hp => moveToStarted_partition st hinv t st2 hp,
    fun t hmem => testDone_partition st hinv t hmem⟩
  intro m t st2 hpn
  by_cases hcond : ((pop_next_test st (some m)).1.isNone && st.started.isEmpty) = true
  · have heq : popNext st m = pop_next_test st none := by
      unfold popNext
      rw [if_pos hcond]
    exact pop_next_test_partition st hinv none t st2 (heq.symm.trans hpn)
  · have heq : popNext st m = pop_next_test st (some m) := by
      unfold popNext
      rw [if_neg hcond]
    exact pop_next_test_partition st hinv (some m) t st2 (heq.symm.trans hpn)

/-- The concrete scheduler state used to witness C7: one test in each
container, with distinct IDs. -/
def stW7 : ExecListState :=
  ⟨[⟨"b1", 2, 5, false⟩], [("w1", ⟨"w1", 1, 1, false⟩)],
    [("s1", ⟨"s1", 1, 1, false⟩)], [("d1", ⟨"d1", 1, 1, false⟩)]⟩

/-- The started test of `stW7`. -/
def tcS : TC := ⟨"s1", 1, 1, false⟩

/-- C7 witness: `execlist_partition_spec` applied to the concrete state
`stW7` (its invariant checked by `decide`) and its started test. -/
theorem execlist_partition_spec_witness :
    InvEL stW7 ∧
    (InvEL (testDone stW7 tcS) ∧ (allIds (testDone stW7 tcS)).Perm (allIds stW7) ∧
      (testDone stW7 tcS).backlog.length + (testDone stW7 tcS).waiting.length +
          (testDone stW7 tcS).started.length + (testDone stW7 tcS).stopped.length
        = stW7.backlog.length + stW7.waiting.length + stW7.started.length +
          stW7.stopped.length ∧
      tcS.id ∈ (testDone stW7 tcS).stopped.map Prod.fst ∧
      ¬ tcS.id ∈ (testDone stW7 tcS).started.map Prod.fst) :=
  ⟨by decide, (execlist_partition_spec stW7 (by decide)).2.2 tcS (by decide)⟩

/-- C5: dependency patterns are resolved tier by tier — `dirname(xdir)/P`,
then `dirname(xdir)/*/P`, then `P`, then `*P` — and the matches of the
first non-empty tier are returned, lower tiers never being consulted; in
particular a test at `alpha/x` declaring pattern `beta` among
`alpha/beta` and `alpha/gamma/beta` resolves to `alpha/beta` only. -/
theorem find_tests_priority_spec :
    (∀ (xdir pattern : String) (xdir_list : List String),
        ¬ tier1 xdir pattern xdir_list = [] →
        find_tests_by_execute_directory_match xdir pattern xdir_list =
          tier1 xdir pattern xdir_list) ∧
    (∀ (xdir pattern : String) (xdir_list : List String),
        tier1 xdir pattern xdir_list = [] → ¬ tier2 xdir pattern xdir_list = [] →
        find_tests_by_execute_directory_match xdir pattern xdir_list =
          tier2 xdir pattern xdir_list) ∧
    (∀ (xdir pattern : String) (xdir_list : List String),
        tier1 xdir pattern xdir_list = [] → tier2 xdir pattern xdir_list = [] →
        ¬ tier3 pattern xdir_list = [] →
        find_tests_by_execute_directory_match xdir pattern xdir_list =
          tier3 pattern xdir_list) ∧
    (∀ (xdir pattern : String) (xdir_list : List String),
        tier1 xdir pattern xdir_list = [] → tier2 xdir pattern xdir_list = [] →
        tier3 pattern xdir_list = [] →
        find_tests_by_execute_directory_match xdir pattern xdir_list =
          tier4 pattern xdir_list) ∧
    find_tests_by_execute_directory_match "alpha/x" "beta"
        ["alpha/beta", "alpha/gamma/beta"] = ["alpha/beta"] := by
  refine ⟨?_, ?_, ?_, ?_, by decide⟩
  · intro xdir pattern xdir_list h1
    simp [find_tests_by_execute_directory_match, h1]
  · intro xdir pattern xdir_list h1 h2
    simp [find_tests_by_execute_directory_match, h1, h2]
  · intro xdir pattern xdir_list h1 h2 h3
    simp [find_tests_by_execute_directory_match, h1, h2, h3]
  · intro xdir pattern xdir_list h1 h2 h3
    simp [find_tests_by_execute_directory_match, h1, h2, h3]

/-- C5 witness: the tier-1 clause of `find_tests_priority_spec` applied to
the concrete scenario (tier 1 non-empty, so tiers 2-4 are ignored even
though `alpha/gamma/beta` matches tier 2). -/
theorem find_tests_priority_spec_witness :
    ¬ tier1 "alpha/x" "beta" ["alpha/beta", "alpha/gamma/beta"] = [] ∧
    find_tests_by_execute_directory_match "alpha/x" "beta"
        ["alpha/beta", "alpha/gamma/beta"] =
      tier1 "alpha/x" "beta" ["alpha/beta", "alpha/gamma/beta"] :=
  ⟨by decide, find_tests_priority_spec.1 "alpha/x" "beta"
    ["alpha/beta", "alpha/gamma/beta"] (by decide)⟩

/-- C6: the claim's skip branch is implemented as stated: in a group
whose analyze test is `a`, a non-analyze sibling skipped for a reason
other than the parameter skip makes the analyze test "analyze dependency
skipped".  The claim's other branch is not: for the concrete rebuilt
group [p=1, p=3, analyze over p=1,2,3] (p=2 excluded by `groupsRebuild`),
the source raises AttributeError out of `applyParamFilter` -- the plain
function `evalfunc` it is given has no `evaluate` attribute -- instead of
filtering the analyze test's ParameterSet, while the spec-side definition
of the same branch yields the claimed instances `{p:1}, {p:3}`. -/
theorem filter_analyze_attribute_error :
    (∀ (grp : List TSpec) (a : TSpec), grp.filter TSpec.isAnalyze = [a] →
        grp.any (fun t : TSpec => ! t.isAnalyze && skipTestCausingAnalyzeSkip t) = true →
        filter_analyze_group grp = Except.ok (grp.map (fun t =>
          if t = a then markSkipT a "analyze dependency skipped" else t))) ∧
    groupsRebuild [tsp1, tsp2, tsp3, tanC6] =
      [(("f.vvt", "T"), [tsp1, tsp3, tanC6])] ∧
    filter_analyze_group [tsp1, tsp3, tanC6] =
      Except.error "AttributeError: function object has no attribute evaluate" ∧
    (filter_analyze_group_spec [tsp1, tsp3, tanC6]).map
        (fun t => (t.isAnalyze, t.skip, t.pset.getInstances)) =
      [(false, none, []), (false, none, []),
        (true, none, [[("p", "1")], [("p", "3")]])] := by
  refine ⟨?_, by decide, by rfl, by decide⟩
  intro grp a hone h
  simp [filter_analyze_group, hone, h]

/-- C6 witness: the skip-branch clause of `filter_analyze_attribute_error`
applied to a concrete group whose p=2 sibling was skipped by the
cumulative-runtime filter: the analyze test is marked "analyze dependency
skipped" (and no AttributeError occurs on this branch). -/
theorem filter_analyze_attribute_error_witness :
    filter_analyze_group [tsp1, tspSkipC6, tanC6] =
      Except.ok ([tsp1, tspSkipC6, tanC6].map (fun t =>
        if t = tanC6 then markSkipT tanC6 "analyze dependency skipped" else t)) :=
  filter_analyze_attribute_error.1 [tsp1, tspSkipC6, tanC6] tanC6
    (by decide) (by decide)

/-- Helper: every failure branch of the submission try-block leaves the
Job in state `setup` (finalize is never reached). -/
theorem build_job_state_cases (st : RunnerState) (sa : SubmitArgs) (date : String) :
    (build_job st sa date).1.state = JState.setup ∨ (build_job st sa date).2 = none := by
  simp only [build_job, finishWait]
  by_cases h0 : sa.args.isEmpty = true
  · rw [if_pos h0]; left; rfl
  · rw [if_neg h0]
    rcases hjn : compute_jobname sa with e | jobname
    · left; rfl
    · dsimp only
      by_cases hv : (! validName jobname) = true
      · rw [if_pos hv]; left; rfl
      · rw [if_neg hv]
        have waitCases : ∀ jb1 : Job, jb1.state = JState.setup →
            (match sa.waitforjobid with
              | some w =>
                if (st.jobdb.any fun p => p.1 == w) = true then
                  ({ jb1 with state := JState.ready }, none)
                else (jb1, some "waitforjobid not in existing job list")
              | none => ({ jb1 with state := JState.ready }, none)).1.state
                = JState.setup ∨
            (match sa.waitforjobid with
              | some w =>
                if (st.jobdb.any fun p => p.1 == w) = true then
                  ({ jb1 with state := JState.ready }, none)
                else (jb1, some "waitforjobid not in existing job list")
              | none => ({ jb1 with state := JState.ready }, none)).2 = none := by
          intro jb1 hjb1
          cases hw : sa.waitforjobid with
          | some w =>
              dsimp only
              by_cases ha : (st.jobdb.any fun p => p.1 == w) = true
              · rw [if_pos ha]; right; rfl
              · rw [if_neg ha]; left; exact hjb1
          | none => right; rfl
        cases hm : sa.machine with
        | some mm =>
            dsimp only
            by_cases hvm : (! validName mm) = true
            · rw [if_pos hvm]; left; rfl
            · rw [if_neg hvm]
              exact waitCases _ rfl
        | none => exact waitCases _ rfl

/-- Helper: a failed build returns a Job still in state `setup`. -/
theorem build_job_error_state (st : RunnerState) (sa : SubmitArgs) (date : String)
    (e : String) (h : (build_job st sa date).2 = some e) :
    (build_job st sa date).1.state = JState.setup := by
  rcases build_job_state_cases st sa date with h1 | h1
  · exact h1
  · rw [h1] at h
    exact absurd h (by simp)

/-- Helper: replacing an existing key's entries makes the key's lookup
find the new value. -/
theorem find?_mapReplace (d : List (JobId × Job)) (k : JobId) (v : Job)
    (hany : d.any (fun p => p.1 == k) = true) :
    (d.map (fun p => if p.1 == k then (k, v) else p)).find? (fun p => p.1 == k) =
      some (k, v) := by
  induction d with
  | nil => simp at hany
  | cons p ds ih =>
      simp only [List.map_cons]
      cases hpk : (p.1 == k) with
      | true => simp [List.find?]
      | false =>
          have hany2 : ds.any (fun p => p.1 == k) = true := by
            simpa [List.any_cons, hpk] using hany
          simpa [List.find?, hpk] using ih hany2

/-- Helper: appending a fresh key makes the key's lookup find it. -/
theorem find?_append_fresh (d : List (JobId × Job)) (k : JobId) (v : Job)
    (hany : d.any (fun p => p.1 == k) = false) :
    (d ++ [(k, v)]).find? (fun p => p.1 == k) = some (k, v) := by
  induction d with
  | nil =>
      rw [List.nil_append]
      simp [List.find?]
  | cons p ds ih =>
      simp only [List.any_cons, Bool.or_eq_false_iff] at hany
      obtain ⟨h1, h2⟩ := hany
      rw [List.cons_append]
      simp only [List.find?, h1]
      exact ih h2

/-- Helper: after `dictInsertJ`, looking up the inserted key finds the
inserted Job. -/
theorem find?_dictInsertJ (d : List (JobId × Job)) (k : JobId) (v : Job) :
    (dictInsertJ d k v).find? (fun p => p.1 == k) = some (k, v) := by
  unfold dictInsertJ
  split
  · exact find?_mapReplace d k v (by assumption)
  · rename_i h
    have hfalse : d.any (fun p => p.1 == k) = false := by
      cases hv : d.any (fun p => p.1 == k) with
      | false => rfl
      | true => exact absurd hv h
    exact find?_append_fresh d k v hfalse

/-- Helper: mapping a key-preserving function commutes with lookup. -/
theorem find?_map_key_pres {f : JobId × Job → JobId × Job}
    (hf : ∀ p, (f p).1 = p.1) (d : List (JobId × Job)) (k : JobId) :
    (d.map f).find? (fun p => p.1 == k) = (d.find? (fun p => p.1 == k)).map f := by
  induction d with
  | nil => simp
  | cons p ds ih =>
      simp only [List.map_cons, List.find?]
      rw [hf p]
      cases hpk : (p.1 == k) with
      | true => simp [hpk]
      | false => simp [hpk, ih]

/-- Helper: the run-to-done sweep of `poll_jobs` leaves a setup-state entry
untouched. -/
theorem find?_poll_sweep (db : List (JobId × Job)) (threadDone : JobId → Bool)
    (k : JobId) (jb : Job) (hjb : jb.state = JState.setup)
    (hfind : db.find? (fun p => p.1 == k) = some (k, jb)) :
    (db.map (fun p =>
        if p.2.state == JState.run && threadDone p.1 then
          (p.1, { p.2 with state := JState.done })
        else p)).find? (fun p => p.1 == k) = some (k, jb) := by
  rw [find?_map_key_pres (fun p => by dsimp only; split <;> rfl), hfind]
  simp [hjb]

/-- Helper: launching any set of jobs leaves a setup-state entry untouched
(only ready jobs change state). -/
theorem find?_launch_fold (launched : List JobId) (db : List (JobId × Job))
    (k : JobId) (jb : Job) (hjb : jb.state = JState.setup)
    (hfind : db.find? (fun p => p.1 == k) = some (k, jb)) :
    (launched.foldl (fun d jid => launch_job_db d jid) db).find?
        (fun p => p.1 == k) = some (k, jb) := by
  induction launched generalizing db with
  | nil => simpa using hfind
  | cons jid rest ih =>
      apply ih
      unfold launch_job_db
      rw [find?_map_key_pres (fun p => by dsimp only; split <;> rfl), hfind]
      by_cases hkj : (k == jid) = true
      · simp [hkj, hjb]
      · have hne : ¬ k = jid := by simpa [beq_iff_eq] using hkj
        simp [hkj, hne]

/-- Helper: a job stored in state `setup` is reported done by `isDone`
regardless of what the polling sweep does to other jobs. -/
theorem isDone_of_setup (st : RunnerState) (threadDone2 : JobId → Bool)
    (k : JobId) (jb : Job) (hjb : jb.state = JState.setup)
    (hfind : st.jobdb.find? (fun p => p.1 == k) = some (k, jb)) :
    JobRunner.isDone st threadDone2 k = some true := by
  have hdb : (poll_jobs st threadDone2).jobdb.find? (fun p => p.1 == k) =
      some (k, jb) := by
    apply find?_launch_fold _ _ _ _ hjb
    exact find?_poll_sweep st.jobdb threadDone2 k jb hjb hfind
  show ((poll_jobs st threadDone2).jobdb.find? (fun p => p.1 == k)).map
      (fun p => stateDoneB p.2.state) = some true
  rw [hdb]
  simp [stateDoneB, hjb]

/-- C10: when preparing a job inside `submit_job` raises (for example an
empty command, or a `waitforjobid` naming no existing job), the exception
is not propagated: the Job is still stored in `jobdb` with the sticky
`exc` attribute set, it remains in state `setup`, its job id is returned,
and a subsequent `poll_job`/`isDone` reports the job as completed (done
means state `setup` or `done`). -/
theorem submit_job_error_spec (st : RunnerState) (sa : SubmitArgs) (date : String)
    (threadDone threadDone2 : JobId → Bool) (e : String)
    (hprep : (build_job (poll_jobs st threadDone) sa date).2 = some e) :
    (JobRunner.submit_job st sa date threadDone).1 =
      (build_job (poll_jobs st threadDone) sa date).1.jobid ∧
    (JobRunner.submit_job st sa date threadDone).2.jobdb.find?
        (fun p => p.1 == (build_job (poll_jobs st threadDone) sa date).1.jobid) =
      some ((build_job (poll_jobs st threadDone) sa date).1.jobid,
        { (build_job (poll_jobs st threadDone) sa date).1 with exc := some e }) ∧
    (build_job (poll_jobs st threadDone) sa date).1.state = JState.setup ∧
    JobRunner.isDone (JobRunner.submit_job st sa date threadDone).2 threadDone2
        ((build_job (poll_jobs st threadDone) sa date).1.jobid) = some true := by
  have hstate : (build_job (poll_jobs st threadDone) sa date).1.state = JState.setup :=
    build_job_error_state _ sa date e hprep
  rcases hb : build_job (poll_jobs st threadDone) sa date with ⟨jb, err⟩
  rw [hb] at hprep hstate
  dsimp only at hprep hstate
  subst hprep
  have hsub : JobRunner.submit_job st sa date threadDone =
      ({ jb with exc := some e }.jobid,
        { poll_jobs st threadDone with
            jobdb := dictInsertJ (poll_jobs st threadDone).jobdb
              ({ jb with exc := some e }.jobid) { jb with exc := some e } }) := by
    simp only [JobRunner.submit_job, hb]
  rw [hsub]
  dsimp only
  refine ⟨rfl, ?_, hstate, ?_⟩
  · exact find?_dictInsertJ _ _ _
  · exact isDone_of_setup
      { poll_jobs st threadDone with
          jobdb := dictInsertJ (poll_jobs st threadDone).jobdb
            ({ jb with exc := some e }.jobid) { jb with exc := some e } }
      threadDone2 ({ jb with exc := some e }.jobid) { jb with exc := some e }
      hstate (find?_dictInsertJ _ _ _)

/-- The empty-command submission of the C10 witness. -/
def saEmptyC10 : SubmitArgs := ⟨[], none, none, none⟩

/-- The unknown-predecessor submission of the C10 witness: a valid command
waiting on a job id that is not in the (empty) registry. -/
def saWaitC10 : SubmitArgs :=
  ⟨["run.sh"], none, none, some (some "ghost", none, "d0")⟩

/-- C10 witness: `submit_job_error_spec` applied to an empty registry with
an empty command, and with a `waitforjobid` naming no existing job; in
both cases the preparation error is produced and `isDone` reports the
stored job as completed. -/
theorem submit_job_error_spec_witness :
    ((build_job (poll_jobs ⟨[], []⟩ (fun _ => false)) saEmptyC10 "d1").2 =
        some "empty or no command given" ∧
      JobRunner.isDone
          (JobRunner.submit_job ⟨[], []⟩ saEmptyC10 "d1" (fun _ => false)).2
          (fun _ => false)
          ((build_job (poll_jobs ⟨[], []⟩ (fun _ => false)) saEmptyC10 "d1").1.jobid) =
        some true) ∧
    ((build_job (poll_jobs ⟨[], []⟩ (fun _ => false)) saWaitC10 "d2").2 =
        some "waitforjobid not in existing job list" ∧
      JobRunner.isDone
          (JobRunner.submit_job ⟨[], []⟩ saWaitC10 "d2" (fun _ => false)).2
          (fun _ => false)
          ((build_job (poll_jobs ⟨[], []⟩ (fun _ => false)) saWaitC10 "d2").1.jobid) =
        some true) :=
  ⟨⟨by decide,
    (submit_job_error_spec ⟨[], []⟩ saEmptyC10 "d1" (fun _ => false) (fun _ => false)
      "empty or no command given" (by decide)).2.2.2⟩,
   ⟨by decide,
    (submit_job_error_spec ⟨[], []⟩ saWaitC10 "d2" (fun _ => false) (fun _ => false)
      "waitforjobid not in existing job list" (by decide)).2.2.2⟩⟩

/-- C2 counterexample: on three active tests with runtime estimates 10, 20
and 40 and cutoff 25, the claim says the 20-second test stays active; the
code marks it skipped, because the running sum 10+20 = 30 already exceeds 25
when the 20-second test itself is added. -/
theorem filter_cummulative_claim_false :
    ¬ (filter_by_cummulative_runtime [rt10, rt20, rt40] 25).all
        (fun t => t.xdir == "t40" || t.skip == none) := by decide

/-- C2 (amended): with estimates 10, 20, 40 and cutoff 25 the filter leaves
only the 10-second test active and marks both the 20-second and 40-second
tests skipped with reason "cummulative runtime threshhold": a test is
marked as soon as the accumulated sum including its own estimate exceeds
the cutoff. -/
theorem filter_cummulative_runtime_spec :
    filter_by_cummulative_runtime [rt10, rt20, rt40] 25 =
      [rt10,
       { rt20 with skip := some "cummulative runtime threshhold" },
       { rt40 with skip := some "cummulative runtime threshhold" }] := by decide

/-- C9: `BatchSLURM.submit` yields the integer parsed from the token
following "Submitted batch job" together with an empty error message; when
no such token is found the job id is `none` and the error message is
non-empty.  In particular "sbatch: Submitted batch job 291041\n" gives
job id 291041 with empty error, and "sbatch: error: bad\n" gives no job id
and a non-empty error. -/
theorem slurm_submit_spec :
    (∀ (out : String) (i : Nat) (n : Int)
        (hfind : strFind submitMarker out.data = some i)
        (h3 : 3 < (pySplit (out.data.drop i)).length)
        (hint : pyInt? ((pySplit (out.data.drop i)).get ⟨3, h3⟩) = some n),
        BatchSLURM.submit_result out = (some (Sum.inl n), "")) ∧
    (∀ out : String, strFind submitMarker out.data = none →
        BatchSLURM.submit_result out = (none, submitErrorMessage)) ∧
    (∀ (out : String) (i : Nat), strFind submitMarker out.data = some i →
        ¬ 3 < (pySplit (out.data.drop i)).length →
        BatchSLURM.submit_result out = (none, submitErrorMessage)) ∧
    submitErrorMessage ≠ "" ∧
    BatchSLURM.submit_result "sbatch: Submitted batch job 291041\n" =
      (some (Sum.inl 291041), "") ∧
    BatchSLURM.submit_result "sbatch: error: bad\n" = (none, submitErrorMessage) := by
  refine ⟨?_, ?_, ?_, by decide, by decide, by decide⟩
  · intro out i n hfind h3 hint
    unfold BatchSLURM.submit_result submit_parse_jobid
    rw [hfind]
    simp only [dif_pos h3, hint]
  · intro out hfind
    unfold BatchSLURM.submit_result submit_parse_jobid
    rw [hfind]
  · intro out i hfind h3
    unfold BatchSLURM.submit_result submit_parse_jobid
    rw [hfind]
    simp only [dif_neg h3]

/-- C9 witness: the general integer-token clause of `slurm_submit_spec`
applied to the concrete output "sbatch: Submitted batch job 291041\n"
(marker at index 8, fourth token "291041"). -/
theorem slurm_submit_spec_witness :
    BatchSLURM.submit_result "sbatch: Submitted batch job 291041\n" =
      (some (Sum.inl 291041), "") :=
  slurm_submit_spec.1 "sbatch: Submitted batch job 291041\n" 8 291041
    (by decide) (by decide) (by decide)

end VVTest
